import Mathlib

/-!
Shallow embedding of the hotdesk-booking reservation core.

The embedded code is the bookings repository layer
(`backend/internal/features/bookings`): the `bookings` table of the
migration (with its `no_overlapping_bookings` exclusion constraint over
`(desk_id WITH =, time_range WITH &&) WHERE (status NOT IN ('cancelled',
'no_show'))`, where `time_range` is the generated column
`tstzrange(start_time, end_time)`), and the repository operations
`CreateBooking`, `UpdateBooking`, `DeleteBooking`, `IsDeskAvailable` and
`GetUserDailyHours`.

Timestamps are modelled as integers (seconds); hour totals as rationals.
A Postgres `tstzrange(s, e)` is half-open `[s, e)`, empty when `s = e`,
and raises an error when `s > e`; the range overlap operator `&&` is
false whenever either range is empty.
-/

namespace Hotdesk

/-- `booking_status` enum: 'confirmed' | 'cancelled' | 'completed' | 'no_show'. -/
inductive BookingStatus where
  | confirmed
  | cancelled
  | completed
  | no_show
deriving Repr, DecidableEq

/-- A row of the `bookings` table (struct `Booking` in models.go).
`time_range` is generated from `startTime`/`endTime` and is not stored
separately. -/
structure Booking where
  id : Nat
  deskId : Nat
  userId : String
  startTime : ℤ
  endTime : ℤ
  status : BookingStatus
  checkedInAt : Option ℤ
  actualEndTime : Option ℤ
  cancelledAt : Option ℤ
  createdAt : ℤ
  updatedAt : ℤ
deriving Repr, DecidableEq

/-- The `bookings` table state: its rows plus the `SERIAL` id sequence. -/
structure BookingsDB where
  bookings : List Booking
  nextId : Nat
deriving Repr, DecidableEq

/-- `CreateBookingInput` (models.go). -/
structure CreateBookingInput where
  deskId : Nat
  userId : String
  startTime : ℤ
  endTime : ℤ
deriving Repr, DecidableEq

/-- `UpdateBookingInput` (models.go): a nil pointer means "leave the field". -/
structure UpdateBookingInput where
  startTime : Option ℤ
  endTime : Option ℤ
  status : Option BookingStatus
  checkedInAt : Option ℤ
  actualEndTime : Option ℤ
  cancelledAt : Option ℤ
deriving Repr, DecidableEq

/-- `DeskAvailabilityCheck` (models.go). -/
structure DeskAvailabilityCheck where
  deskId : Nat
  startTime : ℤ
  endTime : ℤ
  excludeBookingId : Option Nat
deriving Repr, DecidableEq

/-- Repository error values (`ErrBookingConflict`, `ErrBookingNotFound`,
and any other wrapped database error). -/
inductive RepoError where
  | errBookingConflict
  | errBookingNotFound
  | errOther
deriving Repr, DecidableEq

/-- `status NOT IN ('cancelled', 'no_show')`: the filter of the exclusion
constraint and of the availability queries. -/
def BookingStatus.isActive : BookingStatus → Bool
  | .cancelled => false
  | .no_show => false
  | _ => true

/-- Postgres `tstzrange(s1,e1) && tstzrange(s2,e2)`: both ranges non-empty
and sharing an instant. -/
def rangesOverlap (s1 e1 s2 e2 : ℤ) : Bool :=
  decide (s1 < e1 ∧ s2 < e2 ∧ s1 < e2 ∧ s2 < e1)

/-- Intersection of the half-open intervals `[s1, e1)` and `[s2, e2)`,
as the spec phrases overlap. -/
def intervalsIntersect (s1 e1 s2 e2 : ℤ) : Bool :=
  decide (max s1 s2 < min e1 e2)

/-- The `no_overlapping_bookings` exclusion check for inserting an active
row `(deskId, [s, e))`: some existing active row on the same desk whose
`time_range` overlaps `tstzrange(s, e)`. -/
def hasConflict (rows : List Booking) (deskId : Nat) (s e : ℤ) : Bool :=
  rows.any fun b =>
    b.deskId == deskId && b.status.isActive &&
      rangesOverlap b.startTime b.endTime s e

/-- The freshly inserted row produced by `CreateBooking`'s `INSERT`:
default status 'confirmed', null optional timestamps, `created_at` and
`updated_at` defaulting to `NOW()`. -/
def newBooking (db : BookingsDB) (now : ℤ) (input : CreateBookingInput) : Booking :=
  { id := db.nextId
    deskId := input.deskId
    userId := input.userId
    startTime := input.startTime
    endTime := input.endTime
    status := .confirmed
    checkedInAt := none
    actualEndTime := none
    cancelledAt := none
    createdAt := now
    updatedAt := now }

/-- `Repository.CreateBooking`: the `INSERT` first computes the generated
column `tstzrange(start_time, end_time)` (an error when `start > end`),
then the exclusion constraint either rejects the row (mapped to
`ErrBookingConflict` via pg error code 23P01) or commits it. -/
def BookingsDB.createBooking (db : BookingsDB) (now : ℤ)
    (input : CreateBookingInput) : Except RepoError Booking × BookingsDB :=
  if input.endTime < input.startTime then
    (.error .errOther, db)
  else if hasConflict db.bookings input.deskId input.startTime input.endTime then
    (.error .errBookingConflict, db)
  else
    let b := newBooking db now input
    (.ok b, { bookings := db.bookings ++ [b], nextId := db.nextId + 1 })

/-- One `SET` clause of `Repository.UpdateBooking` applied to a stored row:
each nil input pointer keeps the stored value, plus `updated_at = NOW()`. -/
def applyUpdate (b : Booking) (input : UpdateBookingInput) (now : ℤ) : Booking :=
  { b with
    startTime := input.startTime.getD b.startTime
    endTime := input.endTime.getD b.endTime
    status := input.status.getD b.status
    checkedInAt := match input.checkedInAt with
      | some t => some t
      | none => b.checkedInAt
    actualEndTime := match input.actualEndTime with
      | some t => some t
      | none => b.actualEndTime
    cancelledAt := match input.cancelledAt with
      | some t => some t
      | none => b.cancelledAt
    updatedAt := now }

/-- `Repository.UpdateBooking`: `UPDATE ... WHERE id = $n RETURNING ...`.
No matching row maps `pgx.ErrNoRows` to `ErrBookingNotFound`; recomputing
the generated range errors when the updated times are inverted; the
exclusion constraint re-checks an updated active row against all other
rows (pg error 23P01 mapped to `ErrBookingConflict`). -/
def BookingsDB.updateBooking (db : BookingsDB) (now : ℤ) (id : Nat)
    (input : UpdateBookingInput) : Except RepoError Booking × BookingsDB :=
  match db.bookings.find? (fun b => b.id == id) with
  | none => (.error .errBookingNotFound, db)
  | some b =>
    let b' := applyUpdate b input now
    if b'.endTime < b'.startTime then
      (.error .errOther, db)
    else if b'.status.isActive &&
        db.bookings.any (fun c =>
          !(c.id == id) && c.deskId == b'.deskId && c.status.isActive &&
            rangesOverlap c.startTime c.endTime b'.startTime b'.endTime) then
      (.error .errBookingConflict, db)
    else
      (.ok b',
        { db with bookings := db.bookings.map fun c =>
            if c.id == id then applyUpdate c input now else c })

/-- `status NOT IN ('cancelled', 'completed', 'no_show')`: the guard of
`DeleteBooking`'s `UPDATE`, i.e. the row is still cancellable. -/
def BookingStatus.isTerminal : BookingStatus → Bool
  | .confirmed => false
  | _ => true

/-- `Repository.DeleteBooking`: soft delete. The guarded `UPDATE` cancels
only non-terminal rows with the id; when no row was affected it
distinguishes a missing id (`ErrBookingNotFound`) from an
already-terminal row (success, no change). -/
def BookingsDB.deleteBooking (db : BookingsDB) (now : ℤ) (id : Nat) :
    Except RepoError Unit × BookingsDB :=
  if db.bookings.any (fun b => b.id == id && !b.status.isTerminal) then
    (.ok (),
      { db with bookings := db.bookings.map fun b =>
          if b.id == id && !b.status.isTerminal then
            { b with status := .cancelled, cancelledAt := some now, updatedAt := now }
          else b })
  else if db.bookings.any (fun b => b.id == id) then
    (.ok (), db)
  else
    (.error .errBookingNotFound, db)

/-- `Repository.IsDeskAvailable`: `SELECT NOT EXISTS (...)` over active
rows of the desk whose `time_range` overlaps `tstzrange(start, end)`,
optionally excluding one booking id; `tstzrange` with inverted bounds is
a query error. -/
def BookingsDB.isDeskAvailable (db : BookingsDB) (check : DeskAvailabilityCheck) :
    Except RepoError Bool :=
  if check.endTime < check.startTime then
    .error .errOther
  else
    .ok (! db.bookings.any fun b =>
      b.deskId == check.deskId && b.status.isActive &&
        rangesOverlap b.startTime b.endTime check.startTime check.endTime &&
        (match check.excludeBookingId with
          | some ex => !(b.id == ex)
          | none => true))

/-- `Repository.GetUserDailyHours`: sums, over the user's rows with
status in `{confirmed, completed}` satisfying `start_time < endOfDay AND
end_time > startOfDay`, the clipped duration
`(LEAST(end_time, endOfDay) - GREATEST(start_time, startOfDay)) / 3600`
in hours; `COALESCE(..., 0)` when no row qualifies. The caller-facing
day is represented by its start instant; `endOfDay = startOfDay + 24h`. -/
def BookingsDB.getUserDailyHours (db : BookingsDB) (userId : String)
    (startOfDay : ℤ) : ℚ :=
  let endOfDay := startOfDay + 86400
  ((db.bookings.filter fun b =>
      b.userId == userId &&
        (b.status == .confirmed || b.status == .completed) &&
        decide (b.startTime < endOfDay) && decide (b.endTime > startOfDay)).map
    fun b => ((min b.endTime endOfDay - max b.startTime startOfDay : ℤ) : ℚ) / 3600).sum

/-- The repository's mutating operations, as applied by callers. -/
inductive Op where
  | create (now : ℤ) (input : CreateBookingInput)
  | update (now : ℤ) (id : Nat) (input : UpdateBookingInput)
  | delete (now : ℤ) (id : Nat)

/-- The state after one operation (its returned value discarded). -/
def applyOp (db : BookingsDB) : Op → BookingsDB
  | .create now input => (db.createBooking now input).2
  | .update now id input => (db.updateBooking now id input).2
  | .delete now id => (db.deleteBooking now id).2

/-- The state after a sequence of operations. -/
def runOps (db : BookingsDB) (ops : List Op) : BookingsDB :=
  ops.foldl applyOp db

/-- The freshly migrated table: no rows, `SERIAL` sequence at 1. -/
def emptyDB : BookingsDB := { bookings := [], nextId := 1 }

/-- An active reservation on the desk whose half-open interval intersects
the requested one, phrased the way the spec states conflicts. -/
def conflictExists (db : BookingsDB) (deskId : Nat) (s e : ℤ) : Prop :=
  ∃ b ∈ db.bookings, b.deskId = deskId ∧ b.status.isActive = true ∧
    intervalsIntersect b.startTime b.endTime s e = true

/-- A reservation blocking an availability check, phrased the way the
spec states it: same desk, status not in {cancelled, no_show}, interval
intersection, and (when an excluded id is given) a different id. -/
def blockingExists (db : BookingsDB) (check : DeskAvailabilityCheck) : Prop :=
  ∃ b ∈ db.bookings, b.deskId = check.deskId ∧ b.status.isActive = true ∧
    intervalsIntersect b.startTime b.endTime check.startTime check.endTime = true ∧
    ∀ ex, check.excludeBookingId = some ex → b.id ≠ ex

/-- The daily-hours total as the spec words it: reservations of the user
with status in {confirmed, completed} whose half-open interval intersects
the day `[startOfDay, startOfDay + 24h)` contribute their duration
clipped to that day, in hours. -/
def dailyHoursSpec (db : BookingsDB) (userId : String) (startOfDay : ℤ) : ℚ :=
  let endOfDay := startOfDay + 86400
  ((db.bookings.filter fun b =>
      b.userId == userId &&
        (b.status == .confirmed || b.status == .completed) &&
        intervalsIntersect b.startTime b.endTime startOfDay endOfDay).map
    fun b => ((min b.endTime endOfDay - max b.startTime startOfDay : ℤ) : ℚ) / 3600).sum

/-- Modelled from the spec: the `ValidationError` arm of the error
taxonomy; the service layer raising it is not among the repository
sources. -/
inductive ServiceError where
  | validationError
  | repoError (e : RepoError)
deriving Repr, DecidableEq

/-- Modelled from the spec: Policy Validator check 3,
`30min <= duration <= 12h`, in seconds. -/
def durationValid (s e : ℤ) : Bool :=
  decide (1800 ≤ e - s) && decide (e - s ≤ 43200)

/-- Modelled from the spec: the Reservation Service's create path runs
the Policy Validator before the Availability Index insert, and a
validation failure writes nothing. The spec's booking-window and
daily-limit checks are independent of the duration check and are not
needed for the claims below. -/
def serviceCreateBooking (db : BookingsDB) (now : ℤ) (input : CreateBookingInput) :
    Except ServiceError Booking × BookingsDB :=
  if !durationValid input.startTime input.endTime then
    (.error .validationError, db)
  else
    match db.createBooking now input with
    | (.ok b, db') => (.ok b, db')
    | (.error e, db') => (.error (.repoError e), db')

/-- Fixture: a confirmed 10:00–12:00 reservation (seconds of day). -/
def bookingConfirmedFx : Booking :=
  { id := 1, deskId := 1, userId := "u", startTime := 36000, endTime := 43200,
    status := .confirmed, checkedInAt := none, actualEndTime := none,
    cancelledAt := none, createdAt := 0, updatedAt := 0 }

/-- Fixture: the 10:00–12:00 reservation ended early at 10:30
(`status = completed`, `actualEndTime = 10:30`). -/
def bookingCompletedEarlyFx : Booking :=
  { bookingConfirmedFx with
    status := .completed
    actualEndTime := some 37800
    checkedInAt := some 36000
    updatedAt := 37800 }

/-- Fixture: a cancelled reservation over `[100, 200)`. -/
def bookingCancelledFx : Booking :=
  { id := 1, deskId := 1, userId := "u", startTime := 100, endTime := 200,
    status := .cancelled, checkedInAt := none, actualEndTime := none,
    cancelledAt := some 150, createdAt := 0, updatedAt := 150 }

/-- Fixture table holding only `bookingConfirmedFx`. -/
def dbConfirmed : BookingsDB := { bookings := [bookingConfirmedFx], nextId := 2 }

/-- Fixture table holding only `bookingCompletedEarlyFx`. -/
def dbEndedEarly : BookingsDB := { bookings := [bookingCompletedEarlyFx], nextId := 2 }

/-- Fixture table holding only `bookingCancelledFx`. -/
def dbCancelled : BookingsDB := { bookings := [bookingCancelledFx], nextId := 2 }

/-- Fixture: `bookingCancelledFx` after an update of its times and
`cancelledAt` at instant 400. -/
def bookingUpdatedFx : Booking :=
  { bookingCancelledFx with
    startTime := 110
    endTime := 210
    cancelledAt := some 160
    updatedAt := 400 }

/-- Invariant I1 between two rows: if both are on the same desk and both
have a status outside `{cancelled, no_show}`, their intervals do not
intersect. -/
def NoPairOverlap (b1 b2 : Booking) : Prop :=
  b1.deskId = b2.deskId → b1.status.isActive = true → b2.status.isActive = true →
    intervalsIntersect b1.startTime b1.endTime b2.startTime b2.endTime = false

/-- Table-level invariant I1. -/
def activeNoOverlap (db : BookingsDB) : Prop :=
  db.bookings.Pairwise NoPairOverlap

/-- The pairwise part of the maintained invariant: distinct primary keys
(the `SERIAL PRIMARY KEY`) and no active overlap (the exclusion
constraint). -/
def InvPair (b1 b2 : Booking) : Prop :=
  b1.id ≠ b2.id ∧ NoPairOverlap b1 b2

/-- Maintained invariant: pairwise `InvPair` plus freshness of the id
sequence. -/
def Inv (db : BookingsDB) : Prop :=
  db.bookings.Pairwise InvPair ∧ ∀ b ∈ db.bookings, b.id < db.nextId

theorem rangesOverlap_eq_intervalsIntersect (s1 e1 s2 e2 : ℤ) :
    rangesOverlap s1 e1 s2 e2 = intervalsIntersect s1 e1 s2 e2 := by
  simp only [rangesOverlap, intervalsIntersect, decide_eq_decide]
  omega

theorem intervalsIntersect_comm (s1 e1 s2 e2 : ℤ) :
    intervalsIntersect s1 e1 s2 e2 = intervalsIntersect s2 e2 s1 e1 := by
  simp only [intervalsIntersect, decide_eq_decide]
  omega

theorem id_applyUpdate (b : Booking) (input : UpdateBookingInput) (now : ℤ) :
    (applyUpdate b input now).id = b.id := rfl

theorem hasConflict_eq_false_iff {rows : List Booking} {deskId : Nat} {s e : ℤ} :
    hasConflict rows deskId s e = false ↔
      ∀ b ∈ rows, b.deskId = deskId → b.status.isActive = true →
        rangesOverlap b.startTime b.endTime s e = false := by
  simp [hasConflict, List.any_eq_false]

theorem inv_createBooking (db : BookingsDB) (now : ℤ) (input : CreateBookingInput)
    (h : Inv db) : Inv (db.createBooking now input).2 := by
  unfold BookingsDB.createBooking
  split
  · exact h
  split
  · exact h
  · rename_i hnc
    obtain ⟨hpair, hbound⟩ := h
    rw [Bool.not_eq_true] at hnc
    constructor
    · rw [List.pairwise_append]
      refine ⟨hpair, List.pairwise_singleton _ _, ?_⟩
      intro a ha b hb
      rw [List.mem_singleton] at hb
      subst hb
      constructor
      · exact Nat.ne_of_lt (hbound a ha)
      · intro hdesk hact _
        have := (hasConflict_eq_false_iff.mp hnc) a ha hdesk hact
        rw [rangesOverlap_eq_intervalsIntersect] at this
        exact this
    · intro b hb
      rcases List.mem_append.mp hb with h1 | h2
      · exact Nat.lt_succ_of_lt (hbound b h1)
      · rw [List.mem_singleton] at h2
        subst h2
        exact Nat.lt_succ_self _

theorem find?_booking_unique {rows : List Booking} {id : Nat} {b : Booking}
    (hpair : rows.Pairwise InvPair)
    (hfind : rows.find? (fun x => x.id == id) = some b)
    {a : Booking} (ha : a ∈ rows) (haid : a.id = id) : a = b := by
  have hb : b ∈ rows := List.mem_of_find?_eq_some hfind
  have hbid : b.id = id := by simpa using List.find?_some hfind
  by_contra hne
  have hids : rows.Pairwise (fun x y => x.id ≠ y.id) := hpair.imp fun h => h.1
  have hsym : Symmetric (fun x y : Booking => x.id ≠ y.id) := fun _ _ h => h.symm
  exact hids.forall hsym ha hb hne (haid.trans hbid.symm)

theorem inv_updateBooking (db : BookingsDB) (now : ℤ) (id : Nat)
    (input : UpdateBookingInput) (h : Inv db) :
    Inv (db.updateBooking now id input).2 := by
  unfold BookingsDB.updateBooking
  cases hfind : db.bookings.find? (fun b => b.id == id) with
  | none => exact h
  | some b =>
    dsimp only
    split
    · exact h
    split
    · exact h
    · rename_i hguard
      obtain ⟨hpair, hbound⟩ := h
      rw [Bool.not_eq_true, Bool.and_eq_false_iff] at hguard
      constructor
      · rw [List.pairwise_map]
        apply hpair.imp_of_mem
        intro a c ha hc hR
        have hfa : ∀ x : Booking,
            (if x.id == id then applyUpdate x input now else x).id = x.id := by
          intro x
          by_cases hx : x.id = id <;> simp [hx, id_applyUpdate]
        refine ⟨by rw [hfa, hfa]; exact hR.1, ?_⟩
        by_cases hai : a.id = id
        · by_cases hci : c.id = id
          · exact absurd (hai.trans hci.symm) hR.1
          · have hac : a = b := find?_booking_unique hpair hfind ha hai
            subst hac
            simp only [hai, beq_self_eq_true, if_pos, hci, beq_iff_eq, if_neg]
            intro hdesk hact1 hact2
            rcases hguard with hg | hg
            · rw [hg] at hact1; exact absurd hact1 (by simp)
            · have := List.any_eq_false.mp hg c hc
              simp only [Bool.and_eq_true, Bool.not_eq_true', beq_eq_false_iff_ne,
                beq_iff_eq, not_and] at this
              have hro := this ⟨⟨hci, hdesk.symm⟩, hact2⟩
              rw [Bool.not_eq_true, rangesOverlap_eq_intervalsIntersect,
                intervalsIntersect_comm] at hro
              simpa using hro
        · by_cases hci : c.id = id
          · have hcb : c = b := find?_booking_unique hpair hfind hc hci
            subst hcb
            simp only [hai, beq_iff_eq, if_neg, hci, beq_self_eq_true, if_pos]
            intro hdesk hact1 hact2
            rcases hguard with hg | hg
            · rw [hg] at hact2; exact absurd hact2 (by simp)
            · have := List.any_eq_false.mp hg a ha
              simp only [Bool.and_eq_true, Bool.not_eq_true', beq_eq_false_iff_ne,
                beq_iff_eq, not_and] at this
              have hro := this ⟨⟨hai, hdesk⟩, hact1⟩
              rw [Bool.not_eq_true, rangesOverlap_eq_intervalsIntersect] at hro
              simpa using hro
          · simp only [hai, hci, beq_iff_eq, if_neg]
            exact hR.2
      · intro c' hc'
        rw [List.mem_map] at hc'
        obtain ⟨c, hc, rfl⟩ := hc'
        have : (if c.id == id then applyUpdate c input now else c).id = c.id := by
          by_cases hx : c.id = id <;> simp [hx, id_applyUpdate]
        rw [this]
        exact hbound c hc

theorem inv_deleteBooking (db : BookingsDB) (now : ℤ) (id : Nat)
    (h : Inv db) : Inv (db.deleteBooking now id).2 := by
  unfold BookingsDB.deleteBooking
  split
  · obtain ⟨hpair, hbound⟩ := h
    constructor
    · rw [List.pairwise_map]
      apply hpair.imp
      intro a c hR
      have hid : ∀ x : Booking,
          (if x.id == id && !x.status.isTerminal then
            { x with status := .cancelled, cancelledAt := some now, updatedAt := now }
          else x).id = x.id := by
        intro x
        by_cases hx : (x.id == id && !x.status.isTerminal) = true <;> simp [hx]
      refine ⟨by rw [hid, hid]; exact hR.1, ?_⟩
      by_cases hac : (a.id == id && !a.status.isTerminal) = true
      · simp only [hac, if_pos]
        intro _ hact1 _
        simp [BookingStatus.isActive] at hact1
      · by_cases hcc : (c.id == id && !c.status.isTerminal) = true
        · simp only [hac, if_neg, hcc, if_pos]
          intro _ _ hact2
          simp [BookingStatus.isActive] at hact2
        · simp only [hac, hcc, if_neg]
          exact hR.2
    · intro c' hc'
      rw [List.mem_map] at hc'
      obtain ⟨c, hc, rfl⟩ := hc'
      have : (if c.id == id && !c.status.isTerminal then
          { c with status := .cancelled, cancelledAt := some now, updatedAt := now }
        else c).id = c.id := by
        by_cases hx : (c.id == id && !c.status.isTerminal) = true <;> simp [hx]
      rw [this]
      exact hbound c hc
  split
  · exact h
  · exact h

theorem inv_applyOp (db : BookingsDB) (op : Op) (h : Inv db) : Inv (applyOp db op) := by
  cases op with
  | create now input => exact inv_createBooking db now input h
  | update now id input => exact inv_updateBooking db now id input h
  | delete now id => exact inv_deleteBooking db now id h

theorem inv_emptyDB : Inv emptyDB :=
  ⟨List.Pairwise.nil, fun b hb => absurd hb (List.not_mem_nil b)⟩

theorem inv_runOps (db : BookingsDB) (ops : List Op) (h : Inv db) :
    Inv (runOps db ops) := by
  induction ops generalizing db with
  | nil => exact h
  | cons op ops ih => exact ih _ (inv_applyOp db op h)

theorem hasConflict_iff {rows : List Booking} {deskId : Nat} {s e : ℤ} :
    hasConflict rows deskId s e = true ↔
      ∃ b ∈ rows, b.deskId = deskId ∧ b.status.isActive = true ∧
        intervalsIntersect b.startTime b.endTime s e = true := by
  simp only [hasConflict, List.any_eq_true, Bool.and_eq_true, beq_iff_eq,
    rangesOverlap_eq_intervalsIntersect]
  constructor
  · rintro ⟨b, hb, ⟨⟨h1, h2⟩, h3⟩⟩
    exact ⟨b, hb, h1, h2, h3⟩
  · rintro ⟨b, hb, h1, h2, h3⟩
    exact ⟨b, hb, ⟨⟨h1, h2⟩, h3⟩⟩

/-- C1: Invariant I1 (no overlap). In every state reachable from the
empty table by any sequence of CreateBooking / UpdateBooking /
DeleteBooking calls, no two reservations on the same desk whose statuses
are both outside {cancelled, no_show} have intersecting intervals: the
insert and update paths report a conflict instead of committing an
overlapping row. -/
theorem createUpdateDelete_preserve_noOverlap (ops : List Op) :
    activeNoOverlap (runOps emptyDB ops) :=
  ((inv_runOps emptyDB ops inv_emptyDB).1).imp fun h => h.2

/-- C2: CreateBooking inserts the reservation exactly when no existing
reservation on the same desk with status outside {cancelled, no_show}
intersects the requested interval; when an intersecting one exists it
returns ErrBookingConflict and the table is unchanged (no partial
write). -/
theorem createBooking_insert_iff_no_conflict (db : BookingsDB) (now : ℤ)
    (input : CreateBookingInput) (hle : input.startTime ≤ input.endTime) :
    (conflictExists db input.deskId input.startTime input.endTime →
      db.createBooking now input = (.error .errBookingConflict, db)) ∧
    (¬ conflictExists db input.deskId input.startTime input.endTime →
      db.createBooking now input =
        (.ok (newBooking db now input),
          { bookings := db.bookings ++ [newBooking db now input],
            nextId := db.nextId + 1 })) := by
  have hnlt : ¬ input.endTime < input.startTime := not_lt.mpr hle
  constructor
  · intro hc
    unfold BookingsDB.createBooking
    rw [if_neg hnlt, if_pos (hasConflict_iff.mpr hc)]
  · intro hnc
    unfold BookingsDB.createBooking
    rw [if_neg hnlt, if_neg (fun h => hnc (hasConflict_iff.mp h))]

/-- C2 witness: on the fixture table, creating an overlapping booking on
desk 1 is rejected with a conflict and the table is unchanged. -/
theorem createBooking_insert_iff_no_conflict_witness :
    dbConfirmed.createBooking 1000 ⟨1, "v", 37800, 41400⟩ =
      (.error .errBookingConflict, dbConfirmed) :=
  (createBooking_insert_iff_no_conflict dbConfirmed 1000 ⟨1, "v", 37800, 41400⟩
    (by decide)).1
    ⟨bookingConfirmedFx, by simp [dbConfirmed], by decide, by decide, by decide⟩

/-- C3: IsDeskAvailable answers true exactly when no reservation on the
desk with status outside {cancelled, no_show} (and, when an excluded id
is supplied, with a different id) intersects the queried interval. -/
theorem isDeskAvailable_correct (db : BookingsDB) (check : DeskAvailabilityCheck)
    (hle : check.startTime ≤ check.endTime) :
    db.isDeskAvailable check = .ok true ↔ ¬ blockingExists db check := by
  have hpt : ∀ b : Booking,
      (b.deskId == check.deskId && b.status.isActive &&
        rangesOverlap b.startTime b.endTime check.startTime check.endTime &&
        (match check.excludeBookingId with
          | some ex => !(b.id == ex)
          | none => true)) = true ↔
      (b.deskId = check.deskId ∧ b.status.isActive = true ∧
        intervalsIntersect b.startTime b.endTime check.startTime check.endTime = true ∧
        ∀ ex, check.excludeBookingId = some ex → b.id ≠ ex) := by
    intro b
    cases hexc : check.excludeBookingId with
    | none =>
      simp [rangesOverlap_eq_intervalsIntersect, and_assoc]
    | some ex =>
      simp [rangesOverlap_eq_intervalsIntersect, and_assoc]
  unfold BookingsDB.isDeskAvailable blockingExists
  rw [if_neg (not_lt.mpr hle)]
  simp only [Except.ok.injEq, Bool.not_eq_true', List.any_eq_false]
  constructor
  · rintro h ⟨b, hb, hc⟩
    exact h b hb ((hpt b).mpr hc)
  · intro h b hb hp
    exact h ⟨b, hb, (hpt b).mp hp⟩

/-- C3 witness: the fixture desk is reported free for 14:00–15:00. -/
theorem isDeskAvailable_correct_witness :
    dbConfirmed.isDeskAvailable ⟨1, 50400, 54000, none⟩ = .ok true :=
  (isDeskAvailable_correct dbConfirmed ⟨1, 50400, 54000, none⟩ (by decide)).mpr
    (by
      rintro ⟨b, hb, -, -, h3, -⟩
      simp only [dbConfirmed, List.mem_singleton] at hb
      subst hb
      exact absurd h3 (by decide))

/-- C10: the fast check and the authoritative insert agree. Over any
table state, CreateBooking reports a conflict exactly when
IsDeskAvailable for the same desk and interval (no excluded id) answers
false: both use the same condition (same desk, status outside
{cancelled, no_show}, range overlap). -/
theorem createBooking_conflict_iff_unavailable (db : BookingsDB) (now : ℤ)
    (input : CreateBookingInput) :
    (db.createBooking now input).1 = .error .errBookingConflict ↔
      db.isDeskAvailable ⟨input.deskId, input.startTime, input.endTime, none⟩ =
        .ok false := by
  unfold BookingsDB.createBooking BookingsDB.isDeskAvailable
  dsimp only
  by_cases hlt : input.endTime < input.startTime
  · rw [if_pos hlt, if_pos hlt]
    simp
  · rw [if_neg hlt, if_neg hlt]
    have hany : (db.bookings.any fun b =>
        b.deskId == input.deskId && b.status.isActive &&
          rangesOverlap b.startTime b.endTime input.startTime input.endTime && true) =
        hasConflict db.bookings input.deskId input.startTime input.endTime := by
      unfold hasConflict
      congr 1
      funext b
      rw [Bool.and_true]
    by_cases hc : hasConflict db.bookings input.deskId input.startTime input.endTime = true
    · rw [if_pos hc, hany]
      simp [hc]
    · rw [if_neg hc, hany]
      rw [Bool.not_eq_true] at hc
      simp [hc]

/-- C4 (code-bug evidence): with the 10:00–12:00 reservation ended early
at 10:30 (`status = completed`, `actualEnd = 10:30`), the code still
reports the desk unavailable for 10:45–11:30 and rejects the new
reservation with a conflict, leaving the table unchanged — availability
never consults `actual_end_time`, and `completed` rows keep blocking
their full `[start, end)` range. -/
theorem endedEarly_booking_still_blocks :
    dbEndedEarly.isDeskAvailable ⟨1, 38700, 41400, none⟩ = .ok false ∧
    (dbEndedEarly.createBooking 38000 ⟨1, "v", 38700, 41400⟩).1 =
      .error .errBookingConflict ∧
    (dbEndedEarly.createBooking 38000 ⟨1, "v", 38700, 41400⟩).2 = dbEndedEarly :=
  ⟨rfl, rfl, rfl⟩

/-- C5 counterexample: UpdateBooking with a non-nil status pointer moves
a cancelled (terminal) reservation back to confirmed, so terminal states
are not preserved by every operation. -/
theorem updateBooking_revives_cancelled :
    ((dbCancelled.updateBooking 300 1
        ⟨none, none, some .confirmed, none, none, none⟩).2.bookings.map
      Booking.status) = [.confirmed] ∧
    (dbCancelled.updateBooking 300 1
        ⟨none, none, some .confirmed, none, none, none⟩).1 =
      .ok { bookingCancelledFx with status := .confirmed, updatedAt := 300 } :=
  ⟨by decide, rfl⟩

/-- C5 amended: CreateBooking never alters an existing row, DeleteBooking
never changes a reservation already in a terminal state, and
UpdateBooking preserves every reservation's status whenever the input's
status pointer is nil; but an UpdateBooking whose input carries a status
can move a reservation out of a terminal state. -/
theorem terminal_status_preservation_amended (db : BookingsDB) (now : ℤ) :
    (∀ input : CreateBookingInput, ∀ b ∈ db.bookings,
      b ∈ (db.createBooking now input).2.bookings) ∧
    (∀ id : Nat, ∀ b ∈ db.bookings, b.status.isTerminal = true →
      b ∈ (db.deleteBooking now id).2.bookings) ∧
    (∀ id : Nat, ∀ input : UpdateBookingInput, input.status = none →
      (db.updateBooking now id input).2.bookings.map Booking.status =
        db.bookings.map Booking.status) := by
  refine ⟨?_, ?_, ?_⟩
  · intro input b hb
    unfold BookingsDB.createBooking
    split
    · exact hb
    split
    · exact hb
    · exact List.mem_append_left _ hb
  · intro id b hb hterm
    unfold BookingsDB.deleteBooking
    split
    · exact List.mem_map.mpr ⟨b, hb, by simp [hterm]⟩
    split
    · exact hb
    · exact hb
  · intro id input hnone
    unfold BookingsDB.updateBooking
    cases hfind : db.bookings.find? (fun b => b.id == id) with
    | none => rfl
    | some b =>
      dsimp only
      split
      · rfl
      split
      · rfl
      · rw [List.map_map]
        apply List.map_congr_left
        intro c _
        by_cases hc : c.id = id
        · simp [hc, Function.comp, applyUpdate, hnone]
        · simp [hc, Function.comp]

/-- C5 amended witness: on concrete fixtures, creation keeps the old row,
deleting a cancelled row keeps it unchanged, and a status-free update
keeps the status list. -/
theorem terminal_status_preservation_witness :
    bookingCancelledFx ∈ (dbCancelled.createBooking 7 ⟨2, "w", 0, 10⟩).2.bookings ∧
    bookingCancelledFx ∈ (dbCancelled.deleteBooking 5 1).2.bookings ∧
    (dbCancelled.updateBooking 5 1
        ⟨some 110, none, none, none, none, none⟩).2.bookings.map Booking.status =
      [BookingStatus.cancelled] := by
  refine ⟨?_, ?_, ?_⟩
  · exact (terminal_status_preservation_amended dbCancelled 7).1 ⟨2, "w", 0, 10⟩
      bookingCancelledFx (by simp [dbCancelled])
  · exact (terminal_status_preservation_amended dbCancelled 5).2.1 1 bookingCancelledFx
      (by simp [dbCancelled]) (by decide)
  · rw [(terminal_status_preservation_amended dbCancelled 5).2.2 1
      ⟨some 110, none, none, none, none, none⟩ rfl]
    decide

/-- C6: DeleteBooking is idempotent cancellation. A reservation in status
confirmed is set to cancelled with `cancelledAt = now`; a reservation
whose id exists but is already terminal yields success with no change;
an unknown id yields ErrBookingNotFound with no change. -/
theorem deleteBooking_idempotent (db : BookingsDB) (now : ℤ) (id : Nat) :
    (∀ b ∈ db.bookings, b.id = id → b.status = .confirmed →
      (db.deleteBooking now id).1 = .ok () ∧
      { b with
        status := BookingStatus.cancelled
        cancelledAt := some now
        updatedAt := now } ∈ (db.deleteBooking now id).2.bookings) ∧
    ((∃ b ∈ db.bookings, b.id = id) →
      (∀ b ∈ db.bookings, b.id = id → b.status.isTerminal = true) →
      db.deleteBooking now id = (.ok (), db)) ∧
    ((∀ b ∈ db.bookings, b.id ≠ id) →
      db.deleteBooking now id = (.error .errBookingNotFound, db)) := by
  refine ⟨?_, ?_, ?_⟩
  · intro b hb hbid hbst
    have hguard : (db.bookings.any fun x => x.id == id && !x.status.isTerminal) = true :=
      List.any_eq_true.mpr ⟨b, hb, by simp [hbid, hbst, BookingStatus.isTerminal]⟩
    unfold BookingsDB.deleteBooking
    rw [if_pos hguard]
    exact ⟨rfl, List.mem_map.mpr ⟨b, hb, by simp [hbid, hbst, BookingStatus.isTerminal]⟩⟩
  · rintro ⟨b, hb, hbid⟩ hterm
    have hguard : (db.bookings.any fun x => x.id == id && !x.status.isTerminal) = false := by
      rw [List.any_eq_false]
      intro x hx
      by_cases hxid : x.id = id
      · simp [hxid, hterm x hx hxid]
      · simp [hxid]
    have hex : (db.bookings.any fun x => x.id == id) = true :=
      List.any_eq_true.mpr ⟨b, hb, by simp [hbid]⟩
    unfold BookingsDB.deleteBooking
    rw [if_neg (by simp [hguard]), if_pos hex]
  · intro hnone
    have h1 : (db.bookings.any fun x => x.id == id && !x.status.isTerminal) = false := by
      rw [List.any_eq_false]
      intro x hx
      simp [hnone x hx]
    have h2 : (db.bookings.any fun x => x.id == id) = false := by
      rw [List.any_eq_false]
      intro x hx
      simp [hnone x hx]
    unfold BookingsDB.deleteBooking
    rw [if_neg (by simp [h1]), if_neg (by simp [h2])]

/-- C6 witness: cancelling the confirmed fixture works and sets the
cancellation fields, re-cancelling a cancelled fixture changes nothing,
and a missing id reports ErrBookingNotFound. -/
theorem deleteBooking_idempotent_witness :
    ((dbConfirmed.deleteBooking 500 1).1 = .ok () ∧
      { bookingConfirmedFx with
        status := BookingStatus.cancelled
        cancelledAt := some 500
        updatedAt := 500 } ∈ (dbConfirmed.deleteBooking 500 1).2.bookings) ∧
    dbCancelled.deleteBooking 5 1 = (.ok (), dbCancelled) ∧
    dbConfirmed.deleteBooking 5 99 = (.error .errBookingNotFound, dbConfirmed) := by
  refine ⟨?_, ?_, ?_⟩
  · exact (deleteBooking_idempotent dbConfirmed 500 1).1 bookingConfirmedFx
      (by simp [dbConfirmed]) rfl rfl
  · exact (deleteBooking_idempotent dbCancelled 5 1).2.1
      ⟨bookingCancelledFx, by simp [dbCancelled], rfl⟩
      (by
        intro b hb _
        simp only [dbCancelled, List.mem_singleton] at hb
        subst hb
        decide)
  · exact (deleteBooking_idempotent dbConfirmed 5 99).2.2
      (by
        intro b hb
        simp only [dbConfirmed, List.mem_singleton] at hb
        subst hb
        decide)

theorem filter_map_sum_congr {α : Type} (p q : α → Bool) (f : α → ℚ) :
    ∀ l : List α, (∀ a ∈ l, (if p a then f a else 0) = (if q a then f a else 0)) →
      ((l.filter p).map f).sum = ((l.filter q).map f).sum := by
  intro l h
  induction l with
  | nil => rfl
  | cons a l ih =>
    have ha := h a (List.mem_cons_self a l)
    have ih' := ih fun x hx => h x (List.mem_cons_of_mem a hx)
    by_cases hp : p a = true
    · by_cases hq : q a = true
      · simp [List.filter_cons, hp, hq, ih']
      · rw [if_pos hp, if_neg hq] at ha
        simp [List.filter_cons, hp, hq, ih', ha]
    · by_cases hq : q a = true
      · rw [if_neg hp, if_pos hq] at ha
        simp [List.filter_cons, hp, hq, ih', ← ha]
      · simp [List.filter_cons, hp, hq, ih']

theorem dailyTerm_congr (userId : String) (sod : ℤ) (b : Booking)
    (hwfb : b.startTime ≤ b.endTime) :
    (if b.userId == userId && (b.status == .confirmed || b.status == .completed) &&
        decide (b.startTime < sod + 86400) && decide (b.endTime > sod) then
      ((min b.endTime (sod + 86400) - max b.startTime sod : ℤ) : ℚ) / 3600
    else 0) =
    (if b.userId == userId && (b.status == .confirmed || b.status == .completed) &&
        intervalsIntersect b.startTime b.endTime sod (sod + 86400) then
      ((min b.endTime (sod + 86400) - max b.startTime sod : ℤ) : ℚ) / 3600
    else 0) := by
  by_cases hp : (b.userId == userId &&
      (b.status == .confirmed || b.status == .completed)) = true
  · by_cases hii : intervalsIntersect b.startTime b.endTime sod (sod + 86400) = true
    · have hii' := hii
      rw [intervalsIntersect, decide_eq_true_eq] at hii'
      have hd1 : decide (b.startTime < sod + 86400) = true := by
        simp only [decide_eq_true_eq]
        omega
      have hd2 : decide (b.endTime > sod) = true := by
        simp only [decide_eq_true_eq]
        omega
      simp [hp, hii, hd1, hd2]
    · rw [Bool.not_eq_true, intervalsIntersect, decide_eq_false_iff_not, not_lt] at hii
      by_cases hcode : (decide (b.startTime < sod + 86400) &&
          decide (b.endTime > sod)) = true
      · rw [Bool.and_eq_true, decide_eq_true_eq, decide_eq_true_eq] at hcode
        have h0 : min b.endTime (sod + 86400) - max b.startTime sod = 0 := by
          omega
        have hii2 : intervalsIntersect b.startTime b.endTime sod (sod + 86400) = false := by
          rw [intervalsIntersect, decide_eq_false_iff_not, not_lt]
          exact hii
        have hd1 : decide (b.startTime < sod + 86400) = true := by
          simp only [decide_eq_true_eq]
          omega
        have hd2 : decide (b.endTime > sod) = true := by
          simp only [decide_eq_true_eq]
          omega
        simp [hp, hii2, hd1, hd2, h0]
      · rw [Bool.not_eq_true, Bool.and_eq_false_iff] at hcode
        have hii2 : intervalsIntersect b.startTime b.endTime sod (sod + 86400) = false := by
          rw [intervalsIntersect, decide_eq_false_iff_not, not_lt]
          exact hii
        rcases hcode with hc | hc <;> simp [hp, hii2, hc]
  · rw [Bool.not_eq_true] at hp
    simp [hp]

theorem getUserDailyHours_eq_spec (rows : List Booking) (n : Nat) (userId : String)
    (sod : ℤ) (hwf : ∀ b ∈ rows, b.startTime ≤ b.endTime) :
    BookingsDB.getUserDailyHours ⟨rows, n⟩ userId sod =
      dailyHoursSpec ⟨rows, n⟩ userId sod := by
  unfold BookingsDB.getUserDailyHours dailyHoursSpec
  dsimp only
  exact filter_map_sum_congr _ _ _ rows fun b hb => dailyTerm_congr userId sod b (hwf b hb)

/-- C7: GetUserDailyHours returns the sum, over the user's reservations
with status in {confirmed, completed} whose interval intersects the day
`[startOfDay, startOfDay + 24h)`, of the duration in hours clipped to
that day, and 0 when the user has no such reservation; cancelled and
no_show reservations contribute nothing. -/
theorem getUserDailyHours_correct (db : BookingsDB) (userId : String) (sod : ℤ)
    (hwf : ∀ b ∈ db.bookings, b.startTime ≤ b.endTime) :
    db.getUserDailyHours userId sod = dailyHoursSpec db userId sod ∧
    ((∀ b ∈ db.bookings, b.userId = userId →
        (b.status = .confirmed ∨ b.status = .completed) →
        intervalsIntersect b.startTime b.endTime sod (sod + 86400) = false) →
      db.getUserDailyHours userId sod = 0) := by
  obtain ⟨rows, n⟩ := db
  refine ⟨getUserDailyHours_eq_spec rows n userId sod hwf, ?_⟩
  intro hnone
  rw [getUserDailyHours_eq_spec rows n userId sod hwf]
  unfold dailyHoursSpec
  dsimp only
  have hnil : (rows.filter fun b => b.userId == userId &&
      (b.status == .confirmed || b.status == .completed) &&
      intervalsIntersect b.startTime b.endTime sod (sod + 86400)) = [] := by
    rw [List.filter_eq_nil_iff]
    intro b hb hcond
    rw [Bool.and_eq_true, Bool.and_eq_true, Bool.or_eq_true, beq_iff_eq,
      beq_iff_eq, beq_iff_eq] at hcond
    obtain ⟨⟨hu, hst⟩, hii⟩ := hcond
    rw [hnone b hb hu hst] at hii
    exact absurd hii (by simp)
  rw [hnil]
  rfl

/-- C7 witness: the confirmed 10:00–12:00 fixture gives the spec total
for its holder, and a user with no reservations gets 0. -/
theorem getUserDailyHours_correct_witness :
    dbConfirmed.getUserDailyHours "u" 0 = dailyHoursSpec dbConfirmed "u" 0 ∧
    dbConfirmed.getUserDailyHours "z" 0 = 0 := by
  have hwf : ∀ b ∈ dbConfirmed.bookings, b.startTime ≤ b.endTime := by
    intro b hb
    simp only [dbConfirmed, List.mem_singleton] at hb
    subst hb
    decide
  refine ⟨(getUserDailyHours_correct dbConfirmed "u" 0 hwf).1,
    (getUserDailyHours_correct dbConfirmed "z" 0 hwf).2 ?_⟩
  intro b hb hu _
  simp only [dbConfirmed, List.mem_singleton] at hb
  subst hb
  exact absurd hu (by decide)

/-- C8 (service layer modelled from the spec): a creation request whose
duration is under 30 minutes or over 12 hours is rejected with a
ValidationError and nothing is written. -/
theorem create_duration_validation (db : BookingsDB) (now : ℤ)
    (input : CreateBookingInput)
    (h : input.endTime - input.startTime < 1800 ∨
      43200 < input.endTime - input.startTime) :
    serviceCreateBooking db now input = (.error .validationError, db) := by
  have hdv : durationValid input.startTime input.endTime = false := by
    rw [durationValid, Bool.and_eq_false_iff]
    rcases h with h | h
    · left
      rw [decide_eq_false_iff_not]
      omega
    · right
      rw [decide_eq_false_iff_not]
      omega
  unfold serviceCreateBooking
  rw [hdv]
  rfl

/-- C8 witness: a 10-minute request is rejected with a ValidationError
and the table is unchanged. -/
theorem create_duration_validation_witness :
    serviceCreateBooking dbConfirmed 0 ⟨1, "u", 0, 600⟩ =
      (.error .validationError, dbConfirmed) :=
  create_duration_validation dbConfirmed 0 ⟨1, "u", 0, 600⟩ (Or.inl (by decide))

/-- C9: frame property of UpdateBooking. When the update succeeds, every
field whose input pointer is nil keeps its stored value, every field with
a non-nil pointer takes the given value, the identity fields (id, desk,
user, createdAt) never change, updatedAt becomes now, and an update with
all pointers nil changes nothing but updatedAt. -/
theorem updateBooking_frame (db : BookingsDB) (now : ℤ) (id : Nat)
    (input : UpdateBookingInput) (b b' : Booking)
    (hfind : db.bookings.find? (fun x => x.id == id) = some b)
    (hok : (db.updateBooking now id input).1 = .ok b') :
    (input.startTime = none → b'.startTime = b.startTime) ∧
    (∀ t, input.startTime = some t → b'.startTime = t) ∧
    (input.endTime = none → b'.endTime = b.endTime) ∧
    (∀ t, input.endTime = some t → b'.endTime = t) ∧
    (input.status = none → b'.status = b.status) ∧
    (∀ s, input.status = some s → b'.status = s) ∧
    (input.checkedInAt = none → b'.checkedInAt = b.checkedInAt) ∧
    (∀ t, input.checkedInAt = some t → b'.checkedInAt = some t) ∧
    (input.actualEndTime = none → b'.actualEndTime = b.actualEndTime) ∧
    (∀ t, input.actualEndTime = some t → b'.actualEndTime = some t) ∧
    (input.cancelledAt = none → b'.cancelledAt = b.cancelledAt) ∧
    (∀ t, input.cancelledAt = some t → b'.cancelledAt = some t) ∧
    b'.id = b.id ∧ b'.deskId = b.deskId ∧ b'.userId = b.userId ∧
    b'.createdAt = b.createdAt ∧ b'.updatedAt = now ∧
    (input = ⟨none, none, none, none, none, none⟩ →
      b' = { b with updatedAt := now }) := by
  have hb' : b' = applyUpdate b input now := by
    unfold BookingsDB.updateBooking at hok
    rw [hfind] at hok
    dsimp only at hok
    split at hok
    · exact absurd hok (by simp)
    split at hok
    · exact absurd hok (by simp)
    · exact (Except.ok.inj hok).symm
  subst hb'
  refine ⟨fun h => by simp [applyUpdate, h], fun t h => by simp [applyUpdate, h],
    fun h => by simp [applyUpdate, h], fun t h => by simp [applyUpdate, h],
    fun h => by simp [applyUpdate, h], fun s h => by simp [applyUpdate, h],
    fun h => by simp [applyUpdate, h], fun t h => by simp [applyUpdate, h],
    fun h => by simp [applyUpdate, h], fun t h => by simp [applyUpdate, h],
    fun h => by simp [applyUpdate, h], fun t h => by simp [applyUpdate, h],
    rfl, rfl, rfl, rfl, rfl, fun h => by subst h; rfl⟩

/-- C9 witness: updating the cancelled fixture's times and cancelledAt
leaves its status, user, desk and creation time unchanged and stamps
updatedAt. -/
theorem updateBooking_frame_witness :
    bookingUpdatedFx.status = bookingCancelledFx.status ∧
    bookingUpdatedFx.userId = bookingCancelledFx.userId ∧
    bookingUpdatedFx.startTime = 110 ∧
    bookingUpdatedFx.updatedAt = 400 := by
  obtain ⟨-, hst, -, -, hstat, -, -, -, -, -, -, -, -, -, huser, -, hupd, -⟩ :=
    updateBooking_frame dbCancelled 400 1
      ⟨some 110, some 210, none, none, none, some 160⟩
      bookingCancelledFx bookingUpdatedFx rfl (by rfl)
  exact ⟨hstat rfl, huser, hst 110 rfl, hupd⟩

end Hotdesk
